import Mathlib

/-!
Formal model of the container-deployment backend in src/backend/main.py.

The Python program is a FastAPI service that deploys applications as Docker
containers through a CLI-based Docker client.  We embed the parts of the
program that the specification talks about:

* the port-mapping parser of ContainerCLI.ports (lines 339-374);
* the CLI container/image managers (run/get/stop/remove/pull);
* the build pipeline ContainerManager._build_from_github (lines 660-703);
* the image resolution step of ContainerManager.deploy_app (lines 519-533);
* the orchestrator operations deploy_app / stop_app / get_app_status /
  update_last_accessed / cleanup_inactive_containers (lines 507-822);
* the FastAPI routes /deploy, /stop, /status that drive them
  (lines 885-943).

The Docker engine and the surrounding process state are modelled by an
explicit `Engine` record of oracles: for each engine command it records
whether the command succeeds and what it prints.  Timestamps
(datetime.now()) are modelled as natural numbers (seconds); the fixed
15-minute idle threshold becomes 900.  MongoDB history writes never raise
in the source (both helpers catch every exception and only log), so they
are modelled as no-ops on the registry state.

Python exceptions are modelled with `Except`: `PyErr.http` is a FastAPI
HTTPException (status code plus detail) and `PyErr.exc` a plain Exception
carrying its message.  A Python try/except block becomes a `match` on the
`Except` value produced by the body.
-/

set_option linter.unusedVariables false

/-- Timestamps: seconds, as produced by datetime.now() in the source. -/
abbrev Time := Nat

/-- One host binding in a parsed port mapping, as built by
ContainerCLI.ports: a dict with keys HostPort and HostIp. -/
structure PortBinding where
  HostPort : String
  HostIp : String
  deriving DecidableEq, Repr

/-- Association lists standing for Python dicts with string keys.
Python dicts preserve insertion order, which matters for the iteration
order in cleanup_inactive_containers, so we keep the entries as a list. -/
abbrev Dict (α : Type) := List (String × α)

/-- Python d[k] lookup (first entry with the key; entries are unique in any
state reachable by the program). -/
def Dict.lookup {α : Type} : Dict α → String → Option α
  | [], _ => none
  | p :: rest, a => if p.1 = a then some p.2 else Dict.lookup rest a

/-- Python d[k] = v assignment: replaces the entry in place if the key is
present, otherwise appends a new entry (dict insertion order). -/
def Dict.insert {α : Type} : Dict α → String → α → Dict α
  | [], a, v => [(a, v)]
  | p :: rest, a, v => if p.1 = a then (a, v) :: rest else p :: Dict.insert rest a v

/-- Python del d[k]. -/
def Dict.erase {α : Type} (d : Dict α) (a : String) : Dict α :=
  d.filter (fun p => decide (¬ p.1 = a))

/-- Parsed output of docker port: container port to host bindings. -/
abbrev PortMap := Dict (List PortBinding)

/-- Whitespace characters removed by Python str.strip(). -/
def isSpaceChar (c : Char) : Bool :=
  c = ' ' || c = '\t' || c = '\n' || c = '\r' || c = '\x0b' || c = '\x0c'

/-- Drop leading whitespace from a character list. -/
def dropLeadingSpace : List Char → List Char
  | [] => []
  | c :: rest => if isSpaceChar c then dropLeadingSpace rest else c :: rest

/-- Python str.strip(): remove leading and trailing whitespace. -/
def pyStrip (s : String) : String :=
  ⟨dropLeadingSpace (dropLeadingSpace s.data.reverse).reverse⟩

/-- Split a character list on every occurrence of one character, keeping
empty pieces, like Python str.split(c). -/
def splitOnChar (sep : Char) : List Char → List (List Char)
  | [] => [[]]
  | c :: rest =>
    if c = sep then [] :: splitOnChar sep rest
    else
      match splitOnChar sep rest with
      | [] => [[c]]
      | h :: t => (c :: h) :: t

/-- Split a character list on every non-overlapping occurrence of the
four-character separator " -> ", scanning left to right, like Python
str.split(' -> '). -/
def splitArrow : List Char → List (List Char)
  | ' ' :: '-' :: '>' :: ' ' :: rest => [] :: splitArrow rest
  | c :: rest =>
    match splitArrow rest with
    | [] => [[c]]
    | h :: t => (c :: h) :: t
  | [] => [[]]

/-- Python s.split('\n') as strings. -/
def pySplitLines (s : String) : List String :=
  (splitOnChar '\n' s.data).map (fun l => (⟨l⟩ : String))

/-- Python s.split(' -> ') as strings. -/
def pySplitArrow (s : String) : List String :=
  (splitArrow s.data).map (fun l => (⟨l⟩ : String))

/-- Python (c in s) membership test for a single character. -/
def pyContainsChar (s : String) (c : Char) : Bool :=
  s.data.contains c

/-- Python s.startswith(pre). -/
def pyStartsWith (s pre : String) : Bool :=
  pre.data.isPrefixOf s.data

/-- Python host_mapping.rsplit(sep, maxsplit = 1) for a one-character
separator known to occur in the string: the part before the last
occurrence of the separator, and the part after it. -/
def rsplitColon (s : String) : String × String :=
  match (splitOnChar ':' s.data).reverse with
  | [] => (s, "")
  | last :: revInit =>
    (⟨(revInit.reverse.intersperse [':']).flatten⟩, ⟨last⟩)

/-- One iteration of the line loop in ContainerCLI.ports (lines 348-365):
skip empty lines, split on the arrow, and record the host binding; a host
portion without a colon yields an empty HostPort. -/
def parsePortLine (ports : PortMap) (line : String) : PortMap :=
  if line = "" then ports
  else
    match pySplitArrow line with
    | [container_port, host_mapping] =>
      if pyContainsChar host_mapping ':' then
        let (host_ip, host_port) := rsplitColon host_mapping
        Dict.insert ports container_port [{ HostPort := host_port, HostIp := host_ip }]
      else
        Dict.insert ports container_port [{ HostPort := "", HostIp := host_mapping }]
    | _ => ports

/-- ContainerCLI.ports (lines 339-374): parse the stdout of docker port
when the command exits 0, and return an empty mapping on a non-zero exit
(the source also returns an empty mapping when the subprocess call itself
raises).  The function is total: no input is an error. -/
def docker_port_parse (returncode : Int) (stdout : String) : PortMap :=
  if returncode = 0 then
    (pySplitLines (pyStrip stdout)).foldl parsePortLine []
  else []

/-- Python exceptions as they appear in this program: FastAPI
HTTPException (status code plus detail string) and plain Exception
(message).  FastAPI's blanket `except Exception` handlers catch both,
since HTTPException derives from Exception. -/
inductive PyErr where
  | http (status_code : Nat) (detail : String)
  | exc (msg : String)
  deriving DecidableEq, Repr

/-- Python str(e): an HTTPException renders as "code: detail", a plain
Exception as its message. -/
def PyErr.str : PyErr → String
  | PyErr.http c d => toString c ++ ": " ++ d
  | PyErr.exc m => m

/-- Result check corresponding to "the call did not raise". -/
def isOk {ε α : Type} : Except ε α → Bool
  | Except.ok _ => true
  | Except.error _ => false

instance {ε α : Type} [DecidableEq ε] [DecidableEq α] : DecidableEq (Except ε α) := fun a b =>
  match a, b with
  | Except.ok x, Except.ok y =>
    if h : x = y then isTrue (by rw [h]) else isFalse (fun he => h (Except.ok.inj he))
  | Except.error x, Except.error y =>
    if h : x = y then isTrue (by rw [h]) else isFalse (fun he => h (Except.error.inj he))
  | Except.ok _, Except.error _ => isFalse (fun he => Except.noConfusion he)
  | Except.error _, Except.ok _ => isFalse (fun he => Except.noConfusion he)

/-- Oracles for the container engine and the external commands invoked by
the backend.  Each field records, for the relevant key (container id,
image name or repository), whether the command exits 0 and what its
captured stderr is.  `hasContainer` is the engine's ground truth: whether
the container currently exists (a container that vanished out-of-band has
hasContainer = false). -/
structure Engine where
  hasContainer : String → Bool
  stop_ok : String → Bool
  remove_ok : String → Bool
  pull_ok : String → Bool
  run_ok : String → Bool
  runId : String → String
  portCmd : String → Int × String
  clone_ok : String → Bool
  build_ok : String → Bool
  stderrOf : String → String

/-- A ContainerCLI handle (lines 303-374): just the container id; every
operation shells out on demand. -/
structure ContainerCLI where
  id : String
  deriving DecidableEq, Repr

/-- ContainerManagerCLI.get (lines 247-249): builds a handle from the id
without consulting the engine, so it never raises, whether or not the
container still exists. -/
def ContainerManagerCLI.get (container_id : String) : Except PyErr ContainerCLI :=
  Except.ok { id := container_id }

/-- ContainerCLI.stop (lines 315-325): docker stop; a non-zero exit raises
"Failed to stop container: stderr", which the function's own blanket
except re-wraps with the same prefix. -/
def ContainerCLI.stop (eng : Engine) (c : ContainerCLI) : Except PyErr Unit :=
  if eng.stop_ok c.id then Except.ok ()
  else
    Except.error (PyErr.exc ("Failed to stop container: "
      ++ ("Failed to stop container: " ++ eng.stderrOf c.id)))

/-- ContainerCLI.remove (lines 327-337): docker rm, wrapped like stop. -/
def ContainerCLI.remove (eng : Engine) (c : ContainerCLI) : Except PyErr Unit :=
  if eng.remove_ok c.id then Except.ok ()
  else
    Except.error (PyErr.exc ("Failed to remove container: "
      ++ ("Failed to remove container: " ++ eng.stderrOf c.id)))

/-- ImageManagerCLI.pull (lines 382-396): docker pull; a non-zero exit
raises "Failed to pull image: stderr", re-wrapped by the function's own
except as "Failed to pull image IMAGE: ...". -/
def ImageManagerCLI.pull (eng : Engine) (image : String) : Except PyErr Unit :=
  if eng.pull_ok image then Except.ok ()
  else
    Except.error (PyErr.exc ("Failed to pull image " ++ image ++ ": "
      ++ ("Failed to pull image: " ++ eng.stderrOf image)))

/-- ContainerManager._pull_image (lines 634-658): delegates to the image
manager and wraps any failure once more with the image name. -/
def ContainerManager.pull_image (eng : Engine) (image_name : String) : Except PyErr Unit :=
  match ImageManagerCLI.pull eng image_name with
  | Except.ok () => Except.ok ()
  | Except.error e =>
    Except.error (PyErr.exc ("Failed to pull image " ++ image_name ++ ": " ++ e.str))

/-- ContainerManager._build_from_github (lines 660-703).  The result pairs
the outcome (image tag, or the wrapped exception) with a Bool recording
whether the ephemeral workspace directory was removed before returning:
shutil.rmtree(build_dir) is executed only on the success path after the
image build, and the except handler re-raises without any cleanup, so a
clone failure or a build failure leaves the workspace behind. -/
def build_from_github (eng : Engine) (repository app_name : String) :
    Except PyErr String × Bool :=
  if eng.clone_ok repository then
    if eng.build_ok repository then
      (Except.ok ("ai-playground-" ++ app_name ++ ":latest"), true)
    else
      (Except.error (PyErr.exc ("Failed to build image from GitHub " ++ repository ++ ": "
        ++ ("Failed to build image: " ++ eng.stderrOf repository))), false)
  else
    (Except.error (PyErr.exc ("Failed to build image from GitHub " ++ repository ++ ": "
      ++ ("Failed to clone repository: " ++ eng.stderrOf repository))), false)

/-- The image-resolution step of ContainerManager.deploy_app (lines
519-533).  The result pairs the resolved image name (or the propagated
exception) with a Bool recording whether the GitHub build fallback was
attempted.  Only a repository that contains a slash and does not start
with "localhost/" gets the pull-then-build fallback; any other repository
is pulled without a try block, so its pull failure propagates directly. -/
def resolve_image (eng : Engine) (repository app_name : String) :
    Except PyErr String × Bool :=
  let image_name := repository ++ ":latest"
  if pyContainsChar repository '/' && !(pyStartsWith repository "localhost/") then
    match ContainerManager.pull_image eng image_name with
    | Except.ok () => (Except.ok image_name, false)
    | Except.error _ => ((build_from_github eng repository app_name).1, true)
  else
    match ContainerManager.pull_image eng image_name with
    | Except.ok () => (Except.ok image_name, false)
    | Except.error e => (Except.error e, false)

/-- One entry of ContainerManager.active_containers, as stored by
deploy_app (lines 592-599). -/
structure ContainerInfo where
  container_id : String
  container_name : String
  host_port : String
  started_at : Time
  last_accessed : Time
  deriving DecidableEq, Repr

/-- The in-memory registry self.active_containers: app name to record. -/
abbrev Registry := Dict ContainerInfo

/-- The response dict of the status operations. -/
structure StatusReport where
  status : String
  url : Option String
  started_at : Option Time
  last_accessed : Option Time
  deriving DecidableEq, Repr

/-- ContainerManager.get_app_status (lines 761-803).  For a registered
app it calls ContainerManagerCLI.get on the stored container id; because
that get only constructs a handle and never raises, the function reports
"running" for every registered app, and the except branch that would
deregister a vanished container (lines 796-800) is unreachable with the
CLI client.  The engine argument is unused: no engine command is run. -/
def ContainerManager.get_app_status (_eng : Engine) (reg : Registry) (app_name : String) :
    StatusReport × Registry :=
  match Dict.lookup reg app_name with
  | some info =>
    match ContainerManagerCLI.get info.container_id with
    | Except.ok _container =>
      ({ status := "running", url := some ("http://localhost:" ++ info.host_port),
         started_at := some info.started_at, last_accessed := some info.last_accessed }, reg)
    | Except.error _ =>
      ({ status := "stopped", url := none, started_at := none, last_accessed := none },
       Dict.erase reg app_name)
  | none =>
    ({ status := "stopped", url := none, started_at := none, last_accessed := none }, reg)

/-- The body of the try block of ContainerManager.stop_app (lines
707-754): the 404 for an unregistered app, then get / stop / remove /
history update / registry delete.  The MongoDB update never raises in the
source (update_deployment_stop catches everything), so it is a no-op
here. -/
def stop_app_body (eng : Engine) (reg : Registry) (app_name : String) :
    Except PyErr (String × Registry) :=
  match Dict.lookup reg app_name with
  | none => Except.error (PyErr.http 404 "App not found")
  | some info =>
    match ContainerManagerCLI.get info.container_id with
    | Except.error e => Except.error e
    | Except.ok container =>
      match ContainerCLI.stop eng container with
      | Except.error e => Except.error e
      | Except.ok () =>
        match ContainerCLI.remove eng container with
        | Except.error e => Except.error e
        | Except.ok () =>
          Except.ok (app_name ++ " stopped successfully", Dict.erase reg app_name)

/-- ContainerManager.stop_app (lines 705-759): the try body above wrapped
by the blanket `except Exception` handler, which converts EVERY failure
of the body, the 404 HTTPException included, into a fresh HTTPException
with status 500 and detail "Stop failed: str(e)".  On failure the
registry is unchanged. -/
def ContainerManager.stop_app (eng : Engine) (reg : Registry) (app_name : String) :
    Except PyErr String × Registry :=
  match stop_app_body eng reg app_name with
  | Except.ok (msg, reg') => (Except.ok msg, reg')
  | Except.error e => (Except.error (PyErr.http 500 ("Stop failed: " ++ e.str)), reg)

/-- ContainerManager.update_last_accessed (lines 805-808): advance
last_accessed to now for a registered app, no-op otherwise. -/
def ContainerManager.update_last_accessed (reg : Registry) (now : Time) (app_name : String) :
    Registry :=
  match Dict.lookup reg app_name with
  | some info => Dict.insert reg app_name { info with last_accessed := now }
  | none => reg

/-- The 15-minute idle threshold, in seconds (timedelta(minutes=15)). -/
def idleThreshold : Nat := 15 * 60

/-- The first loop of cleanup_inactive_containers (lines 813-818): the
apps whose last_accessed is strictly older than 15 minutes, in registry
order. -/
def inactiveApps (reg : Registry) (now : Time) : List String :=
  (reg.filter (fun p => decide (idleThreshold < now - p.2.last_accessed))).map Prod.fst

/-- The second loop of cleanup_inactive_containers (lines 820-822): stop
each collected app in order.  stop_app raises HTTPException(500) on any
failure and the loop has no try/except, so the first failure aborts the
remaining iterations and propagates out of the pass. -/
def reapGo (eng : Engine) : List String → Registry → Except PyErr Unit × Registry
  | [], reg => (Except.ok (), reg)
  | a :: rest, reg =>
    match ContainerManager.stop_app eng reg a with
    | (Except.ok _, reg') => reapGo eng rest reg'
    | (Except.error e, reg') => (Except.error e, reg')

/-- ContainerManager.cleanup_inactive_containers (lines 810-822). -/
def cleanup_inactive_containers (eng : Engine) (reg : Registry) (now : Time) :
    Except PyErr Unit × Registry :=
  reapGo eng (inactiveApps reg now) reg

/-- The PUBLIC_HOST default used when building deployment URLs (line
615). -/
def PUBLIC_HOST : String := "91.99.196.35"

/-- The response dict of the deploy operations; already_running responses
carry only status and url. -/
structure DeployResp where
  status : String
  app_name : Option String
  url : Option String
  container_id : Option String
  deriving DecidableEq, Repr

/-- The host-port capture of deploy_app (lines 581-587): the first
binding list whose head has a non-empty HostPort; empty string if none. -/
def firstHostPort : PortMap → String
  | [] => ""
  | (_, pbs) :: rest =>
    match pbs with
    | [] => firstHostPort rest
    | pb :: _ => if pb.HostPort ≠ "" then pb.HostPort else firstHostPort rest

/-- ContainerManager.deploy_app (lines 507-632): resolve the image (pull
with GitHub-build fallback), docker run, read the port mapping once,
insert the registry record with started_at and last_accessed both set to
now, and record history (a no-op on this state).  Any failure inside the
big try block surfaces as HTTPException(500, "Deployment failed: ...")
and leaves the registry unchanged.  The third component lists the ids of
containers created by the call. -/
def ContainerManager.deploy_app (eng : Engine) (reg : Registry) (now : Time)
    (app_name repository : String) (_port : Nat) :
    (Except PyErr DeployResp × Registry) × List String :=
  let container_name := "ai-playground-" ++ app_name ++ "-" ++ toString now
  match (resolve_image eng repository app_name).1 with
  | Except.error e =>
    ((Except.error (PyErr.http 500 ("Deployment failed: " ++ e.str)), reg), [])
  | Except.ok image_name =>
    if eng.run_ok image_name then
      let cid := eng.runId image_name
      let ports := docker_port_parse (eng.portCmd cid).1 (eng.portCmd cid).2
      let host_port := firstHostPort ports
      let info : ContainerInfo :=
        { container_id := cid, container_name := container_name,
          host_port := host_port, started_at := now, last_accessed := now }
      ((Except.ok { status := "success", app_name := some app_name,
                    url := some ("http://" ++ PUBLIC_HOST ++ ":" ++ host_port),
                    container_id := some cid },
        Dict.insert reg app_name info), [cid])
    else
      ((Except.error (PyErr.http 500 ("Deployment failed: "
          ++ ("Failed to run container: " ++ ("Failed to run container: "
            ++ ("Failed to run container: " ++ eng.stderrOf image_name))))), reg), [])

/-- The /deploy route (lines 885-903): ask get_app_status first and
short-circuit with an already_running response (status and the reported
url only) when the app is reported running; otherwise run the real
deployment. -/
def deploy_route (eng : Engine) (reg : Registry) (now : Time)
    (app_name repository : String) (port : Nat) :
    (Except PyErr DeployResp × Registry) × List String :=
  let res := ContainerManager.get_app_status eng reg app_name
  if res.1.status = "running" then
    ((Except.ok { status := "already_running", app_name := none,
                  url := res.1.url, container_id := none }, res.2), [])
  else
    ContainerManager.deploy_app eng res.2 now app_name repository port

/-- The /status/app_name route (lines 936-943): update last_accessed
first, then report the manager status. -/
def status_route (eng : Engine) (reg : Registry) (now : Time) (app_name : String) :
    StatusReport × Registry :=
  ContainerManager.get_app_status eng
    (ContainerManager.update_last_accessed reg now app_name) app_name

/-- The registry-mutating operations reachable in the running service:
the three routes and the periodic reap pass. -/
inductive Op where
  | deployR (app_name repository : String) (port : Nat)
  | stopR (app_name : String)
  | statusR (app_name : String)
  | reap
  deriving DecidableEq, Repr

/-- The registry after one operation executed at the given time. -/
def step (eng : Engine) (reg : Registry) (now : Time) : Op → Registry
  | Op.deployR a r p => (deploy_route eng reg now a r p).1.2
  | Op.stopR a => (ContainerManager.stop_app eng reg a).2
  | Op.statusR a => (status_route eng reg now a).2
  | Op.reap => (cleanup_inactive_containers eng reg now).2

/-- Run a timed sequence of operations from a starting registry. -/
def run_trace (eng : Engine) : Registry → List (Time × Op) → Registry
  | reg, [] => reg
  | reg, (t, op) :: rest => run_trace eng (step eng reg t op) rest

/-- All registries a trace passes through, the initial and final ones
included. -/
def statesOf (eng : Engine) : Registry → List (Time × Op) → List Registry
  | reg, [] => [reg]
  | reg, (t, op) :: rest => reg :: statesOf eng (step eng reg t op) rest

/-- The times of a trace are non-decreasing and bounded below by t0. -/
def timesMono : Time → List (Time × Op) → Bool
  | _, [] => true
  | t0, (t, _) :: rest => decide (t0 ≤ t) && timesMono t rest

/-- Every last_accessed in the registry is at most t (the clock has not
run backwards). -/
def boundedBy (reg : Registry) (t : Time) : Bool :=
  reg.all (fun p => decide (p.2.last_accessed ≤ t))

theorem Dict.lookup_insert {α : Type} (r : Dict α) (a b : String) (v : α) :
    Dict.lookup (Dict.insert r a v) b = if b = a then some v else Dict.lookup r b := by
  induction r with
  | nil => simp [Dict.insert, Dict.lookup, eq_comm]
  | cons p rest ih =>
    by_cases hpa : p.1 = a <;> by_cases hba : b = a <;>
      simp_all [Dict.insert, Dict.lookup, eq_comm]

theorem Dict.lookup_erase {α : Type} (r : Dict α) (a b : String) :
    Dict.lookup (Dict.erase r a) b = if b = a then none else Dict.lookup r b := by
  induction r with
  | nil => simp [Dict.erase, Dict.lookup]
  | cons p rest ih =>
    by_cases hpa : p.1 = a
    · have he : Dict.erase (p :: rest) a = Dict.erase rest a := by
        simp [Dict.erase, List.filter_cons, hpa]
      rw [he, ih]
      by_cases hba : b = a
      · simp [hba]
      · have hpb : ¬ p.1 = b := by rw [hpa]; exact fun h => hba h.symm
        simp [hba, Dict.lookup, hpb]
    · have he : Dict.erase (p :: rest) a = p :: Dict.erase rest a := by
        simp [Dict.erase, List.filter_cons, hpa]
      rw [he]
      by_cases hpb : p.1 = b
      · have hba : ¬ b = a := fun h => hpa (hpb.trans h)
        simp [Dict.lookup, hpb, hba]
      · simp [Dict.lookup, hpb, ih]

theorem Dict.mem_insert {α : Type} {r : Dict α} {a : String} {v : α} {q : String × α}
    (h : q ∈ Dict.insert r a v) : q = (a, v) ∨ q ∈ r := by
  induction r with
  | nil => simpa [Dict.insert] using h
  | cons p rest ih =>
    by_cases hpa : p.1 = a
    · simp only [Dict.insert, if_pos hpa, List.mem_cons] at h
      rcases h with h | h
      · exact Or.inl h
      · exact Or.inr (List.mem_cons_of_mem _ h)
    · simp only [Dict.insert, if_neg hpa, List.mem_cons] at h
      rcases h with h | h
      · exact Or.inr (by simp [h])
      · rcases ih h with h2 | h2
        · exact Or.inl h2
        · exact Or.inr (List.mem_cons_of_mem _ h2)

theorem Dict.mem_erase {α : Type} {r : Dict α} {a : String} {q : String × α}
    (h : q ∈ Dict.erase r a) : q ∈ r :=
  (List.mem_filter.mp h).1

theorem Dict.lookup_mem {α : Type} {r : Dict α} {a : String} {v : α}
    (h : Dict.lookup r a = some v) : (a, v) ∈ r := by
  induction r with
  | nil => simp [Dict.lookup] at h
  | cons p rest ih =>
    obtain ⟨k, w⟩ := p
    by_cases hka : k = a
    · simp only [Dict.lookup, if_pos hka] at h
      subst hka
      cases h
      exact List.mem_cons_self _ _
    · simp only [Dict.lookup, if_neg hka] at h
      exact List.mem_cons_of_mem _ (ih h)

theorem Dict.lookup_of_mem_nodup {α : Type} {r : Dict α} {p : String × α}
    (hnd : (r.map Prod.fst).Nodup) (hmem : p ∈ r) :
    Dict.lookup r p.1 = some p.2 := by
  induction r with
  | nil => cases hmem
  | cons q rest ih =>
    simp only [List.map_cons, List.nodup_cons] at hnd
    rcases List.mem_cons.mp hmem with h | h
    · subst h; simp [Dict.lookup]
    · have hq : ¬ q.1 = p.1 := by
        intro he
        exact hnd.1 (he ▸ List.mem_map_of_mem Prod.fst h)
      simp only [Dict.lookup, if_neg hq]
      exact ih hnd.2 h

theorem Dict.key_inj {α : Type} {r : Dict α} {p q : String × α}
    (hnd : (r.map Prod.fst).Nodup) (hp : p ∈ r) (hq : q ∈ r) (h : p.1 = q.1) : p = q := by
  have h1 := Dict.lookup_of_mem_nodup hnd hp
  have h2 := Dict.lookup_of_mem_nodup hnd hq
  rw [h, h2] at h1
  obtain ⟨a, v⟩ := p
  obtain ⟨b, w⟩ := q
  cases h1
  cases h
  rfl

theorem Dict.keys_insert_of_lookup {α : Type} {r : Dict α} {a : String} {w : α} (v : α)
    (h : Dict.lookup r a = some w) :
    (Dict.insert r a v).map Prod.fst = r.map Prod.fst := by
  induction r with
  | nil => simp [Dict.lookup] at h
  | cons p rest ih =>
    by_cases hpa : p.1 = a
    · simp [Dict.insert, hpa]
    · simp only [Dict.lookup, if_neg hpa] at h
      simp [Dict.insert, hpa, ih h]

theorem ContainerManager.get_app_status_state (eng : Engine) (reg : Registry) (a : String) :
    (ContainerManager.get_app_status eng reg a).2 = reg := by
  unfold ContainerManager.get_app_status
  cases Dict.lookup reg a <;> simp [ContainerManagerCLI.get]

theorem ContainerManager.get_app_status_of_lookup (eng : Engine) (reg : Registry)
    (a : String) (info : ContainerInfo) (h : Dict.lookup reg a = some info) :
    ContainerManager.get_app_status eng reg a
      = ({ status := "running", url := some ("http://localhost:" ++ info.host_port),
           started_at := some info.started_at,
           last_accessed := some info.last_accessed }, reg) := by
  unfold ContainerManager.get_app_status
  rw [h]
  rfl

theorem ContainerManager.get_app_status_none (eng : Engine) (reg : Registry)
    (a : String) (h : Dict.lookup reg a = none) :
    ContainerManager.get_app_status eng reg a
      = ({ status := "stopped", url := none, started_at := none,
           last_accessed := none }, reg) := by
  unfold ContainerManager.get_app_status
  rw [h]

theorem stop_app_ok (eng : Engine) (reg : Registry) (a : String) (info : ContainerInfo)
    (hlk : Dict.lookup reg a = some info)
    (hstop : eng.stop_ok info.container_id = true)
    (hrm : eng.remove_ok info.container_id = true) :
    ContainerManager.stop_app eng reg a
      = (Except.ok (a ++ " stopped successfully"), Dict.erase reg a) := by
  unfold ContainerManager.stop_app stop_app_body
  rw [hlk]
  simp [ContainerManagerCLI.get, ContainerCLI.stop, ContainerCLI.remove, hstop, hrm]

theorem stop_app_stop_fail (eng : Engine) (reg : Registry) (a : String) (info : ContainerInfo)
    (hlk : Dict.lookup reg a = some info)
    (hstop : eng.stop_ok info.container_id = false) :
    ContainerManager.stop_app eng reg a
      = (Except.error (PyErr.http 500 ("Stop failed: "
          ++ ("Failed to stop container: " ++ ("Failed to stop container: "
            ++ eng.stderrOf info.container_id)))), reg) := by
  unfold ContainerManager.stop_app stop_app_body
  rw [hlk]
  simp [ContainerManagerCLI.get, ContainerCLI.stop, hstop, PyErr.str]

theorem stop_app_none (eng : Engine) (reg : Registry) (a : String)
    (h : Dict.lookup reg a = none) :
    ContainerManager.stop_app eng reg a
      = (Except.error (PyErr.http 500 "Stop failed: 404: App not found"), reg) := by
  unfold ContainerManager.stop_app stop_app_body
  rw [h]
  simp only [PyErr.str]
  have hs : ("Stop failed: " ++ (toString 404 ++ ": " ++ "App not found"))
      = "Stop failed: 404: App not found" := by decide
  rw [hs]

theorem ContainerManager.stop_app_state (eng : Engine) (reg : Registry) (a : String) :
    (ContainerManager.stop_app eng reg a).2 = reg ∨
    (ContainerManager.stop_app eng reg a).2 = Dict.erase reg a := by
  unfold ContainerManager.stop_app stop_app_body
  cases h : Dict.lookup reg a with
  | none => simp
  | some info =>
    simp only [ContainerManagerCLI.get, ContainerCLI.stop, ContainerCLI.remove]
    by_cases h1 : eng.stop_ok info.container_id <;>
      by_cases h2 : eng.remove_ok info.container_id <;> simp [h1, h2]

theorem reapGo_lookup_some (eng : Engine) (names : List String) :
    ∀ (reg : Registry) (a : String) (v : ContainerInfo),
      Dict.lookup (reapGo eng names reg).2 a = some v → Dict.lookup reg a = some v := by
  induction names with
  | nil => intro reg a v h; simpa [reapGo] using h
  | cons b rest ih =>
    intro reg a v h
    unfold reapGo at h
    rcases hres : ContainerManager.stop_app eng reg b with ⟨res, reg'⟩
    rw [hres] at h
    have hst := ContainerManager.stop_app_state eng reg b
    rw [hres] at hst
    have hst' : reg' = reg ∨ reg' = Dict.erase reg b := hst
    have htrans : Dict.lookup reg' a = some v → Dict.lookup reg a = some v := by
      intro h2
      rcases hst' with h3 | h3
      · rwa [h3] at h2
      · rw [h3, Dict.lookup_erase] at h2
        by_cases hab : a = b
        · simp [hab] at h2
        · simpa [hab] using h2
    cases res with
    | ok m => exact htrans (ih reg' a v h)
    | error e => exact htrans h

theorem reapGo_lookup_not_mem (eng : Engine) (names : List String) :
    ∀ (reg : Registry) (a : String), ¬ a ∈ names →
      Dict.lookup (reapGo eng names reg).2 a = Dict.lookup reg a := by
  induction names with
  | nil => intro reg a _; rfl
  | cons b rest ih =>
    intro reg a ha
    have hab : ¬ a = b := fun h => ha (h ▸ List.mem_cons_self b rest)
    have harest : ¬ a ∈ rest := fun h => ha (List.mem_cons_of_mem _ h)
    unfold reapGo
    rcases hres : ContainerManager.stop_app eng reg b with ⟨res, reg'⟩
    have hst := ContainerManager.stop_app_state eng reg b
    rw [hres] at hst
    have hst' : reg' = reg ∨ reg' = Dict.erase reg b := hst
    have hpres : Dict.lookup reg' a = Dict.lookup reg a := by
      rcases hst' with h3 | h3
      · rw [h3]
      · rw [h3, Dict.lookup_erase, if_neg hab]
    cases res with
    | ok m =>
      show Dict.lookup (reapGo eng rest reg').2 a = Dict.lookup reg a
      rw [ih reg' a harest, hpres]
    | error e =>
      show Dict.lookup reg' a = Dict.lookup reg a
      exact hpres

theorem reapGo_mem (eng : Engine) (names : List String) :
    ∀ (reg : Registry) (q : String × ContainerInfo),
      q ∈ (reapGo eng names reg).2 → q ∈ reg := by
  induction names with
  | nil => intro reg q h; simpa [reapGo] using h
  | cons b rest ih =>
    intro reg q h
    unfold reapGo at h
    rcases hres : ContainerManager.stop_app eng reg b with ⟨res, reg'⟩
    rw [hres] at h
    have hst := ContainerManager.stop_app_state eng reg b
    rw [hres] at hst
    have hst' : reg' = reg ∨ reg' = Dict.erase reg b := hst
    have htrans : q ∈ reg' → q ∈ reg := by
      intro h2
      rcases hst' with h3 | h3
      · rwa [h3] at h2
      · rw [h3] at h2
        exact Dict.mem_erase h2
    cases res with
    | ok m => exact htrans (ih reg' q h)
    | error e => exact htrans h

theorem reapGo_all_ok (eng : Engine) (names : List String) :
    ∀ (reg : Registry), names.Nodup →
      (∀ a ∈ names, ∃ info, Dict.lookup reg a = some info ∧
        eng.stop_ok info.container_id = true ∧ eng.remove_ok info.container_id = true) →
      reapGo eng names reg
        = (Except.ok (), reg.filter (fun p => decide (¬ p.1 ∈ names))) := by
  induction names with
  | nil =>
    intro reg _ _
    simp [reapGo]
  | cons b rest ih =>
    intro reg hnd h
    obtain ⟨info, hlk, hstop, hrm⟩ := h b (List.mem_cons_self b rest)
    have hstep := stop_app_ok eng reg b info hlk hstop hrm
    have hnd2 := List.nodup_cons.mp hnd
    have h2 : ∀ a ∈ rest, ∃ info2, Dict.lookup (Dict.erase reg b) a = some info2 ∧
        eng.stop_ok info2.container_id = true ∧ eng.remove_ok info2.container_id = true := by
      intro a ha
      obtain ⟨i2, hl2, hs2, hr2⟩ := h a (List.mem_cons_of_mem _ ha)
      refine ⟨i2, ?_, hs2, hr2⟩
      rw [Dict.lookup_erase]
      have hab : ¬ a = b := fun he => hnd2.1 (he ▸ ha)
      rw [if_neg hab]
      exact hl2
    have hrec := ih (Dict.erase reg b) hnd2.2 h2
    unfold reapGo
    rw [hstep]
    show reapGo eng rest (Dict.erase reg b)
        = (Except.ok (), reg.filter (fun p => decide (¬ p.1 ∈ b :: rest)))
    rw [hrec]
    congr 1
    simp only [Dict.erase]
    rw [List.filter_filter]
    apply List.filter_congr
    intro p hp
    by_cases h1 : p.1 = b <;> by_cases hmem : p.1 ∈ rest <;> simp [h1, hmem]

theorem ContainerManager.deploy_app_state (eng : Engine) (reg : Registry) (now : Time)
    (a r : String) (p : Nat) :
    (ContainerManager.deploy_app eng reg now a r p).1.2 = reg ∨
    ∃ info : ContainerInfo, info.started_at = now ∧ info.last_accessed = now ∧
      (ContainerManager.deploy_app eng reg now a r p).1.2 = Dict.insert reg a info := by
  simp only [ContainerManager.deploy_app]
  cases hres : (resolve_image eng r a).1 with
  | error e => left; rfl
  | ok image =>
    by_cases hrun : eng.run_ok image = true
    · right
      refine ⟨{ container_id := eng.runId image,
                container_name := "ai-playground-" ++ a ++ "-" ++ toString now,
                host_port := firstHostPort (docker_port_parse (eng.portCmd (eng.runId image)).1
                  (eng.portCmd (eng.runId image)).2),
                started_at := now, last_accessed := now }, rfl, rfl, ?_⟩
      simp [hrun]
    · left
      simp [hrun]

theorem deploy_route_state (eng : Engine) (reg : Registry) (now : Time)
    (a r : String) (p : Nat) :
    (deploy_route eng reg now a r p).1.2 = reg ∨
    ∃ info : ContainerInfo, info.started_at = now ∧ info.last_accessed = now ∧
      (deploy_route eng reg now a r p).1.2 = Dict.insert reg a info := by
  simp only [deploy_route]
  cases hlk : Dict.lookup reg a with
  | some info =>
    rw [ContainerManager.get_app_status_of_lookup eng reg a info hlk]
    left; rfl
  | none =>
    rw [ContainerManager.get_app_status_none eng reg a hlk]
    have hns : ¬ (("stopped" : String) = "running") := by decide
    rw [if_neg hns]
    exact ContainerManager.deploy_app_state eng reg now a r p

theorem status_route_state (eng : Engine) (reg : Registry) (now : Time) (a : String) :
    (status_route eng reg now a).2 = ContainerManager.update_last_accessed reg now a := by
  unfold status_route
  rw [ContainerManager.get_app_status_state]

theorem update_last_accessed_mem (reg : Registry) (now : Time) (a : String)
    (q : String × ContainerInfo)
    (hq : q ∈ ContainerManager.update_last_accessed reg now a) :
    q ∈ reg ∨ q.2.last_accessed = now := by
  unfold ContainerManager.update_last_accessed at hq
  cases hlk : Dict.lookup reg a with
  | none => rw [hlk] at hq; exact Or.inl hq
  | some info =>
    rw [hlk] at hq
    rcases Dict.mem_insert hq with h | h
    · right; rw [h]
    · exact Or.inl h

theorem boundedBy_iff (reg : Registry) (t : Time) :
    boundedBy reg t = true ↔ ∀ p ∈ reg, p.2.last_accessed ≤ t := by
  unfold boundedBy
  rw [List.all_eq_true]
  constructor
  · intro h p hp; exact of_decide_eq_true (h p hp)
  · intro h p hp; exact decide_eq_true (h p hp)

theorem boundedBy_mono (reg : Registry) (t t' : Time)
    (h : boundedBy reg t = true) (hle : t ≤ t') : boundedBy reg t' = true := by
  rw [boundedBy_iff] at *
  intro p hp
  exact le_trans (h p hp) hle

theorem step_mem (eng : Engine) (reg : Registry) (t : Time) (op : Op)
    (q : String × ContainerInfo) (hq : q ∈ step eng reg t op) :
    q ∈ reg ∨ q.2.last_accessed = t := by
  cases op with
  | deployR a r p =>
    rcases deploy_route_state eng reg t a r p with h | ⟨info, hs, hl, h⟩
    · rw [show step eng reg t (Op.deployR a r p) = (deploy_route eng reg t a r p).1.2 from rfl,
        h] at hq
      exact Or.inl hq
    · rw [show step eng reg t (Op.deployR a r p) = (deploy_route eng reg t a r p).1.2 from rfl,
        h] at hq
      rcases Dict.mem_insert hq with h2 | h2
      · right; rw [h2]; exact hl
      · exact Or.inl h2
  | stopR a =>
    rcases ContainerManager.stop_app_state eng reg a with h | h
    · rw [show step eng reg t (Op.stopR a) = (ContainerManager.stop_app eng reg a).2 from rfl,
        h] at hq
      exact Or.inl hq
    · rw [show step eng reg t (Op.stopR a) = (ContainerManager.stop_app eng reg a).2 from rfl,
        h] at hq
      exact Or.inl (Dict.mem_erase hq)
  | statusR a =>
    rw [show step eng reg t (Op.statusR a) = (status_route eng reg t a).2 from rfl,
      status_route_state] at hq
    exact update_last_accessed_mem reg t a q hq
  | reap =>
    exact Or.inl (reapGo_mem eng (inactiveApps reg t) reg q hq)

theorem step_boundedBy (eng : Engine) (reg : Registry) (t : Time) (op : Op)
    (h : boundedBy reg t = true) : boundedBy (step eng reg t op) t = true := by
  rw [boundedBy_iff] at *
  intro q hq
  rcases step_mem eng reg t op q hq with h2 | h2
  · exact h q h2
  · rw [h2]

theorem step_lookup (eng : Engine) (reg : Registry) (t : Time) (op : Op)
    (app : String) (info info' : ContainerInfo)
    (hwf : boundedBy reg t = true)
    (h0 : Dict.lookup reg app = some info)
    (h1 : Dict.lookup (step eng reg t op) app = some info') :
    info'.started_at = info.started_at ∧ info.last_accessed ≤ info'.last_accessed := by
  cases op with
  | deployR a r p =>
    by_cases haa : a = app
    · subst haa
      have hsh : step eng reg t (Op.deployR a r p) = reg := by
        show (deploy_route eng reg t a r p).1.2 = reg
        simp only [deploy_route]
        rw [ContainerManager.get_app_status_of_lookup eng reg a info h0]
        rfl
      rw [hsh, h0] at h1
      cases h1
      exact ⟨rfl, le_refl _⟩
    · rcases deploy_route_state eng reg t a r p with h | ⟨i2, hs, hl, h⟩
      · rw [show step eng reg t (Op.deployR a r p) = (deploy_route eng reg t a r p).1.2 from rfl,
          h, h0] at h1
        cases h1
        exact ⟨rfl, le_refl _⟩
      · rw [show step eng reg t (Op.deployR a r p) = (deploy_route eng reg t a r p).1.2 from rfl,
          h, Dict.lookup_insert, if_neg (fun he => haa he.symm), h0] at h1
        cases h1
        exact ⟨rfl, le_refl _⟩
  | stopR a =>
    rcases ContainerManager.stop_app_state eng reg a with h | h
    · rw [show step eng reg t (Op.stopR a) = (ContainerManager.stop_app eng reg a).2 from rfl,
        h, h0] at h1
      cases h1
      exact ⟨rfl, le_refl _⟩
    · rw [show step eng reg t (Op.stopR a) = (ContainerManager.stop_app eng reg a).2 from rfl,
        h, Dict.lookup_erase] at h1
      by_cases hb : app = a
      · rw [if_pos hb] at h1
        cases h1
      · rw [if_neg hb, h0] at h1
        cases h1
        exact ⟨rfl, le_refl _⟩
  | statusR a =>
    rw [show step eng reg t (Op.statusR a) = (status_route eng reg t a).2 from rfl,
      status_route_state] at h1
    unfold ContainerManager.update_last_accessed at h1
    by_cases hb : a = app
    · subst hb
      rw [h0, Dict.lookup_insert, if_pos rfl] at h1
      cases h1
      refine ⟨rfl, ?_⟩
      exact (boundedBy_iff reg t).mp hwf _ (Dict.lookup_mem h0)
    · cases hl2 : Dict.lookup reg a with
      | none =>
        rw [hl2, h0] at h1
        cases h1
        exact ⟨rfl, le_refl _⟩
      | some i2 =>
        rw [hl2, Dict.lookup_insert, if_neg (fun he => hb he.symm), h0] at h1
        cases h1
        exact ⟨rfl, le_refl _⟩
  | reap =>
    have h2 := reapGo_lookup_some eng (inactiveApps reg t) reg app info' h1
    rw [h0] at h2
    cases h2
    exact ⟨rfl, le_refl _⟩

/-- A healthy engine: every command succeeds. -/
def engAllOk : Engine :=
  { hasContainer := fun _ => true, stop_ok := fun _ => true, remove_ok := fun _ => true,
    pull_ok := fun _ => true, run_ok := fun _ => true, runId := fun _ => "cid-new",
    portCmd := fun _ => (0, "8000/tcp -> 0.0.0.0:49200"), clone_ok := fun _ => true,
    build_ok := fun _ => true, stderrOf := fun _ => "err" }

/-- An engine whose git clone fails (and pulls fail, so deploys reach the
build fallback). -/
def engCloneFail : Engine :=
  { hasContainer := fun _ => true, stop_ok := fun _ => true, remove_ok := fun _ => true,
    pull_ok := fun _ => false, run_ok := fun _ => true, runId := fun _ => "cid-new",
    portCmd := fun _ => (0, ""), clone_ok := fun _ => false,
    build_ok := fun _ => true, stderrOf := fun _ => "fatal: repository not found" }

/-- An engine where every docker pull fails but cloning and building
succeed. -/
def engPullFail : Engine :=
  { hasContainer := fun _ => true, stop_ok := fun _ => true, remove_ok := fun _ => true,
    pull_ok := fun _ => false, run_ok := fun _ => true, runId := fun _ => "cid-new",
    portCmd := fun _ => (0, ""), clone_ok := fun _ => true,
    build_ok := fun _ => true, stderrOf := fun _ => "pull access denied" }

/-- An engine from which every container has vanished out-of-band: the
containers no longer exist, and docker stop / docker rm on them fail. -/
def engVanished : Engine :=
  { hasContainer := fun _ => false, stop_ok := fun _ => false, remove_ok := fun _ => false,
    pull_ok := fun _ => true, run_ok := fun _ => true, runId := fun _ => "cid-x",
    portCmd := fun _ => (1, ""), clone_ok := fun _ => true,
    build_ok := fun _ => true, stderrOf := fun _ => "No such container" }

/-- An engine where docker stop fails exactly for container cid-a. -/
def engStopAFail : Engine :=
  { hasContainer := fun _ => true, stop_ok := fun cid => decide (¬ cid = "cid-a"),
    remove_ok := fun _ => true, pull_ok := fun _ => true, run_ok := fun _ => true,
    runId := fun _ => "cid-new", portCmd := fun _ => (0, ""), clone_ok := fun _ => true,
    build_ok := fun _ => true, stderrOf := fun _ => "boom" }

/-- A registry record backed by container cid-demo. -/
def infoDemo : ContainerInfo :=
  { container_id := "cid-demo", container_name := "ai-playground-demo-100",
    host_port := "49153", started_at := 100, last_accessed := 100 }

/-- A registry holding the single record infoDemo under the name demo. -/
def regDemo : Registry := [("demo", infoDemo)]

/-- Record backed by cid-a, idle since time 0. -/
def infoA : ContainerInfo :=
  { container_id := "cid-a", container_name := "ai-playground-appa-0",
    host_port := "49001", started_at := 0, last_accessed := 0 }

/-- Record backed by cid-b, idle since time 0. -/
def infoB : ContainerInfo :=
  { container_id := "cid-b", container_name := "ai-playground-appb-0",
    host_port := "49002", started_at := 0, last_accessed := 0 }

/-- A registry with two idle records, appa before appb. -/
def regAB : Registry := [("appa", infoA), ("appb", infoB)]

/-- C1 counterexample: the claim says the ephemeral workspace is deleted
before returning in all three outcomes, clone failure included.  On the
engine engCloneFail the clone of octo/demo fails, _build_from_github
raises, and the workspace-deleted flag is false: the except handler
re-raises without running shutil.rmtree, so the workspace is NOT deleted
on the clone-failure path. -/
theorem C1_counterexample :
    isOk (build_from_github engCloneFail "octo/demo" "demo").1 = false ∧
    (build_from_github engCloneFail "octo/demo" "demo").2 = false := by decide

/-- C1 amended: the workspace created by _build_from_github is deleted
before control returns exactly when the build succeeds, i.e. when both
the clone and the image build succeed; on a clone failure or an image
build failure the workspace is not deleted (it leaks). -/
theorem C1_amended (eng : Engine) (repository app_name : String) :
    (build_from_github eng repository app_name).2
      = (eng.clone_ok repository && eng.build_ok repository) := by
  unfold build_from_github
  by_cases h1 : eng.clone_ok repository = true <;>
    by_cases h2 : eng.build_ok repository = true <;> simp [h1, h2]

/-- C2 (code bug): for the record demo whose backing container cid-demo
has vanished from the engine (hasContainer is false, docker stop/rm would
fail with "No such container"), get_app_status still reports running with
the stale data and keeps the record registered, because
ContainerManagerCLI.get only constructs a handle and never consults the
engine, so the deregistration branch cannot fire.  The claim (and the
comment at source line 798) say it should report stopped and deregister. -/
theorem C2_vanished_reported_running :
    engVanished.hasContainer infoDemo.container_id = false ∧
    ContainerManager.get_app_status engVanished regDemo "demo"
      = ({ status := "running", url := some "http://localhost:49153",
           started_at := some 100, last_accessed := some 100 }, regDemo) := by decide

/-- C3 (code bug): stop_app on an unregistered name raises
HTTPException(404, "App not found") inside its try block, but the blanket
except handler at lines 756-759 catches that very exception and replaces
it with HTTPException(500, "Stop failed: 404: App not found"), so the
caller observes a 500, not the 404 NotFoundError the claim states.  The
registry is unchanged either way. -/
theorem C3_stop_unregistered (eng : Engine) (reg : Registry) (app_name : String)
    (h : Dict.lookup reg app_name = none) :
    ContainerManager.stop_app eng reg app_name
      = (Except.error (PyErr.http 500 "Stop failed: 404: App not found"), reg) :=
  stop_app_none eng reg app_name h

/-- C3 witness: stopping the unregistered name ghost on an empty registry
yields the 500 wrapper, and the registry stays empty. -/
theorem C3_stop_unregistered_witness :
    ContainerManager.stop_app engAllOk [] "ghost"
      = (Except.error (PyErr.http 500 "Stop failed: 404: App not found"), []) :=
  C3_stop_unregistered engAllOk [] "ghost" rfl

/-- C8: the port-mapping parser maps "8000/tcp -> 0.0.0.0:49153" to the
binding HostPort 49153 / HostIp 0.0.0.0; maps a line whose host portion
has no colon to an empty HostPort with the host portion as HostIp; and
maps empty output (exit 0, empty stdout) and failed output (non-zero
exit) to an empty mapping.  The parser is a total function, so no input
is an error. -/
theorem C8_port_mapping_parse :
    docker_port_parse 0 "8000/tcp -> 0.0.0.0:49153"
      = [("8000/tcp", [{ HostPort := "49153", HostIp := "0.0.0.0" }])] ∧
    docker_port_parse 0 "8000/tcp -> 0.0.0.0"
      = [("8000/tcp", [{ HostPort := "", HostIp := "0.0.0.0" }])] ∧
    docker_port_parse 0 "" = [] ∧
    docker_port_parse 1 "" = [] := by decide

/-- C4 counterexample: at time 1000 both records of regAB are idle for
longer than 15 minutes, so both are eligible for the reap pass.  docker
stop fails for cid-a (the first eligible record) and would succeed for
cid-b, but the pass aborts on the first failure: it raises the wrapped
HTTPException(500) out of cleanup_inactive_containers, the registry is
completely unchanged, and the stoppable record appb was never attempted.
The claim says the failure is logged, the pass still attempts every other
eligible record and completes without raising. -/
theorem C4_counterexample :
    (cleanup_inactive_containers engStopAFail regAB 1000).1
      = Except.error (PyErr.http 500
          "Stop failed: Failed to stop container: Failed to stop container: boom") ∧
    (cleanup_inactive_containers engStopAFail regAB 1000).2 = regAB ∧
    engStopAFail.stop_ok infoB.container_id = true := by decide

/-- C4 amended: a stop failure during a reap pass is fatal to the pass:
when docker stop fails on the first eligible record, the
HTTPException(500) raised by stop_app propagates out of
cleanup_inactive_containers uncaught, the remaining eligible records are
not attempted, and the registry is left exactly as it was. -/
theorem C4_amended (eng : Engine) (reg : Registry) (now : Time) (a : String)
    (rest : List String) (info : ContainerInfo)
    (hfirst : inactiveApps reg now = a :: rest)
    (hlk : Dict.lookup reg a = some info)
    (hfail : eng.stop_ok info.container_id = false) :
    cleanup_inactive_containers eng reg now
      = (Except.error (PyErr.http 500 ("Stop failed: "
          ++ ("Failed to stop container: " ++ ("Failed to stop container: "
            ++ eng.stderrOf info.container_id)))), reg) := by
  unfold cleanup_inactive_containers
  rw [hfirst]
  unfold reapGo
  rw [stop_app_stop_fail eng reg a info hlk hfail]

/-- C4 amended witness: the concrete reap pass of the counterexample
instantiates the amended claim. -/
theorem C4_amended_witness :
    cleanup_inactive_containers engStopAFail regAB 1000
      = (Except.error (PyErr.http 500 ("Stop failed: "
          ++ ("Failed to stop container: " ++ ("Failed to stop container: "
            ++ engStopAFail.stderrOf infoA.container_id)))), regAB) :=
  C4_amended engStopAFail regAB 1000 "appa" ["appb"] infoA (by decide) (by decide) (by decide)

/-- C5 counterexample: the claim quantifies over every repository, but
deploy only wraps the pull in a try block when the repository contains a
slash and does not start with localhost/.  For repository localhost/demo
the pull fails on engPullFail, yet the build fallback is never attempted
(even though clone and build would succeed) and the pull failure itself
propagates as the error. -/
theorem C5_counterexample :
    engPullFail.pull_ok ("localhost/demo" ++ ":latest") = false ∧
    engPullFail.clone_ok "localhost/demo" = true ∧
    engPullFail.build_ok "localhost/demo" = true ∧
    (resolve_image engPullFail "localhost/demo" "demo").2 = false ∧
    isOk (resolve_image engPullFail "localhost/demo" "demo").1 = false := by decide

/-- C5 amended: when the pull of repository:latest fails, the behaviour
splits on the repository's shape.  For a repository containing a slash
and not starting with localhost/, the GitHub build fallback is attempted,
the pull failure is not surfaced, and deploy's image resolution errors
exactly when the fallback is also exhausted (clone or build fails).  For
any other repository the pull failure is surfaced directly and the
fallback is never attempted. -/
theorem C5_amended (eng : Engine) (repository app_name : String)
    (hpull : eng.pull_ok (repository ++ ":latest") = false) :
    if pyContainsChar repository '/' && !(pyStartsWith repository "localhost/") then
      (resolve_image eng repository app_name).2 = true ∧
      isOk (resolve_image eng repository app_name).1
        = (eng.clone_ok repository && eng.build_ok repository)
    else
      (resolve_image eng repository app_name).2 = false ∧
      isOk (resolve_image eng repository app_name).1 = false := by
  have hp : ContainerManager.pull_image eng (repository ++ ":latest")
      = Except.error (PyErr.exc ("Failed to pull image " ++ (repository ++ ":latest") ++ ": "
        ++ (PyErr.exc ("Failed to pull image " ++ (repository ++ ":latest") ++ ": "
          ++ ("Failed to pull image: " ++ eng.stderrOf (repository ++ ":latest")))).str)) := by
    unfold ContainerManager.pull_image ImageManagerCLI.pull
    rw [hpull]
    simp
  by_cases hshape : (pyContainsChar repository '/' && !(pyStartsWith repository "localhost/")) = true
  · rw [if_pos hshape]
    simp only [resolve_image, hshape, if_true, hp]
    refine ⟨by trivial, ?_⟩
    unfold build_from_github
    by_cases h1 : eng.clone_ok repository = true <;>
      by_cases h2 : eng.build_ok repository = true <;> simp [h1, h2, isOk]
  · rw [if_neg hshape]
    simp only [resolve_image, hshape, if_false, hp]
    simp [isOk]

/-- C5 amended witness: for octo/demo (slash, not localhost/) on
engPullFail, the pull fails, the fallback runs and succeeds. -/
theorem C5_amended_witness :
    if pyContainsChar "octo/demo" '/' && !(pyStartsWith "octo/demo" "localhost/") then
      (resolve_image engPullFail "octo/demo" "demo").2 = true ∧
      isOk (resolve_image engPullFail "octo/demo" "demo").1
        = (engPullFail.clone_ok "octo/demo" && engPullFail.build_ok "octo/demo")
    else
      (resolve_image engPullFail "octo/demo" "demo").2 = false ∧
      isOk (resolve_image engPullFail "octo/demo" "demo").1 = false :=
  C5_amended engPullFail "octo/demo" "demo" (by decide)

/-- C6: deploying a name that already has a registry record returns
already_running with the existing record's endpoint url, performs no
deployment (the registry is returned unchanged, so its size is
unchanged), and creates no container (the list of created container ids
is empty).  With the CLI client every registered record is reported
running, so the hypothesis is exactly "a record reported running exists". -/
theorem C6_deploy_already_running (eng : Engine) (reg : Registry) (now : Time)
    (app_name repository : String) (port : Nat) (info : ContainerInfo)
    (h : Dict.lookup reg app_name = some info) :
    deploy_route eng reg now app_name repository port
      = ((Except.ok { status := "already_running", app_name := none,
                      url := some ("http://localhost:" ++ info.host_port),
                      container_id := none },
          reg), []) := by
  simp only [deploy_route]
  rw [ContainerManager.get_app_status_of_lookup eng reg app_name info h]
  rfl

/-- C6 witness: deploying demo while regDemo holds its record returns
already_running with infoDemo's port and leaves the registry as is. -/
theorem C6_deploy_already_running_witness :
    deploy_route engAllOk regDemo 500 "demo" "octo/demo" 8000
      = ((Except.ok { status := "already_running", app_name := none,
                      url := some ("http://localhost:" ++ infoDemo.host_port),
                      container_id := none },
          regDemo), []) :=
  C6_deploy_already_running engAllOk regDemo 500 "demo" "octo/demo" 8000 infoDemo rfl

/-- A still-fresh registry record (last_accessed 200). -/
def infoFresh : ContainerInfo :=
  { container_id := "cid-fresh", container_name := "ai-playground-fresh-200",
    host_port := "49003", started_at := 200, last_accessed := 200 }

/-- A registry with one stale record and one fresh record. -/
def regMix : Registry := [("stale", infoA), ("fresh", infoFresh)]

/-- C7: provided every eligible stop succeeds on the engine (the claim
presumes normal engine operation; failures are claim C4's subject), one
reap pass at read time now completes without raising and the registry
afterwards is exactly the original registry filtered to the records whose
age is at most 15 minutes: every record with age at most the threshold
survives with its fields untouched, and every record strictly older is
stopped and removed. -/
theorem C7_reap_exact (eng : Engine) (reg : Registry) (now : Time)
    (hnodup : (reg.map Prod.fst).Nodup)
    (hok : ∀ p ∈ reg, idleThreshold < now - p.2.last_accessed →
      eng.stop_ok p.2.container_id = true ∧ eng.remove_ok p.2.container_id = true) :
    (cleanup_inactive_containers eng reg now).1 = Except.ok () ∧
    (cleanup_inactive_containers eng reg now).2
      = reg.filter (fun p => decide (now - p.2.last_accessed ≤ idleThreshold)) := by
  have hnames_nodup : (inactiveApps reg now).Nodup :=
    List.Nodup.sublist (List.Sublist.map Prod.fst (List.filter_sublist reg)) hnodup
  have hnames : ∀ a ∈ inactiveApps reg now, ∃ info, Dict.lookup reg a = some info ∧
      eng.stop_ok info.container_id = true ∧ eng.remove_ok info.container_id = true := by
    intro a ha
    obtain ⟨q, hq, hqa⟩ := List.mem_map.mp ha
    obtain ⟨hqmem, hqel⟩ := List.mem_filter.mp hq
    have hel : idleThreshold < now - q.2.last_accessed := of_decide_eq_true hqel
    obtain ⟨hs, hr⟩ := hok q hqmem hel
    refine ⟨q.2, ?_, hs, hr⟩
    rw [← hqa]
    exact Dict.lookup_of_mem_nodup hnodup hqmem
  have hall := reapGo_all_ok eng (inactiveApps reg now) reg hnames_nodup hnames
  unfold cleanup_inactive_containers
  rw [hall]
  refine ⟨rfl, ?_⟩
  apply List.filter_congr
  intro p hp
  have hiff : p.1 ∈ inactiveApps reg now ↔ idleThreshold < now - p.2.last_accessed := by
    constructor
    · intro hm
      obtain ⟨q, hq, hqa⟩ := List.mem_map.mp hm
      obtain ⟨hqmem, hqel⟩ := List.mem_filter.mp hq
      have heq : q = p := Dict.key_inj hnodup hqmem hp hqa
      have hel := of_decide_eq_true hqel
      rwa [heq] at hel
    · intro hel
      exact List.mem_map_of_mem Prod.fst (List.mem_filter.mpr ⟨hp, decide_eq_true hel⟩)
  by_cases hel : idleThreshold < now - p.2.last_accessed
  · have hmem := hiff.mpr hel
    simp [hmem, Nat.not_le.mpr hel]
  · have hmem : ¬ p.1 ∈ inactiveApps reg now := fun hm => hel (hiff.mp hm)
    simp [hmem, Nat.not_lt.mp hel]

/-- C7 witness: at time 1000 the stale record (idle 1000 seconds) is
reaped and the fresh record (idle 800 seconds) survives untouched. -/
theorem C7_reap_exact_witness :
    (cleanup_inactive_containers engAllOk regMix 1000).1 = Except.ok () ∧
    (cleanup_inactive_containers engAllOk regMix 1000).2
      = regMix.filter (fun p => decide (1000 - p.2.last_accessed ≤ idleThreshold)) :=
  C7_reap_exact engAllOk regMix 1000 (by decide) (by decide)

/-- C9: along any timed sequence of deploy/stop/status/reap operations
whose clock never runs backwards (timesMono) and whose initial registry
is consistent with the starting clock (boundedBy), a record that stays
registered through every intermediate state keeps its started_at exactly
as it was created and its last_accessed never decreases.  started_at is
written only when deploy inserts a record (both timestamps set to the
current time) and no operation rewrites it; last_accessed is rewritten
only by the touch of the status route, to the current time. -/
theorem C9_record_timestamps (eng : Engine) (reg0 : Registry) (t0 : Time)
    (trace : List (Time × Op)) (app : String) (info info' : ContainerInfo)
    (hmono : timesMono t0 trace = true)
    (hwf : boundedBy reg0 t0 = true)
    (halive : (statesOf eng reg0 trace).all (fun s => (Dict.lookup s app).isSome) = true)
    (h0 : Dict.lookup reg0 app = some info)
    (h1 : Dict.lookup (run_trace eng reg0 trace) app = some info') :
    info'.started_at = info.started_at ∧ info.last_accessed ≤ info'.last_accessed := by
  induction trace generalizing reg0 t0 info with
  | nil =>
    rw [show run_trace eng reg0 [] = reg0 from rfl, h0] at h1
    cases h1
    exact ⟨rfl, le_refl _⟩
  | cons hd rest ih =>
    obtain ⟨t, op⟩ := hd
    rw [show timesMono t0 ((t, op) :: rest) = (decide (t0 ≤ t) && timesMono t rest) from rfl,
      Bool.and_eq_true] at hmono
    obtain ⟨hle, hmono2⟩ := hmono
    have hle2 : t0 ≤ t := of_decide_eq_true hle
    have hwft : boundedBy reg0 t = true := boundedBy_mono reg0 t0 t hwf hle2
    rw [show statesOf eng reg0 ((t, op) :: rest)
        = reg0 :: statesOf eng (step eng reg0 t op) rest from rfl,
      List.all_cons, Bool.and_eq_true] at halive
    obtain ⟨_, halive2⟩ := halive
    have hsome1 : (Dict.lookup (step eng reg0 t op) app).isSome = true := by
      have hmem : step eng reg0 t op ∈ statesOf eng (step eng reg0 t op) rest := by
        cases rest with
        | nil => exact List.mem_cons_self _ _
        | cons x xs => exact List.mem_cons_self _ _
      exact (List.all_eq_true.mp halive2) _ hmem
    obtain ⟨info1, hinfo1⟩ := Option.isSome_iff_exists.mp hsome1
    have hstep := step_lookup eng reg0 t op app info info1 hwft h0 hinfo1
    have hwf1 : boundedBy (step eng reg0 t op) t = true := step_boundedBy eng reg0 t op hwft
    have h1' : Dict.lookup (run_trace eng (step eng reg0 t op) rest) app = some info' := h1
    have hrec := ih (step eng reg0 t op) t info1 hmono2 hwf1 halive2 hinfo1 h1'
    exact ⟨hrec.1.trans hstep.1, le_trans hstep.2 hrec.2⟩

/-- The record used in the C9 witness trace. -/
def infoW : ContainerInfo :=
  { container_id := "cid-w", container_name := "ai-playground-appw-5",
    host_port := "49009", started_at := 5, last_accessed := 5 }

/-- C9 witness: a status poll at time 6 followed by a reap at time 7 on a
registry holding appw keeps started_at at 5 and moves last_accessed
upward from 5 to 6. -/
theorem C9_record_timestamps_witness :
    ({ infoW with last_accessed := 6 } : ContainerInfo).started_at = infoW.started_at ∧
    infoW.last_accessed ≤ ({ infoW with last_accessed := 6 } : ContainerInfo).last_accessed :=
  C9_record_timestamps engAllOk [("appw", infoW)] 5 [(6, Op.statusR "appw"), (7, Op.reap)]
    "appw" infoW { infoW with last_accessed := 6 }
    (by decide) (by decide) (by decide) (by decide) (by decide)

/-- C10: the status route is not a pure read: for a registered app it
first advances the record's last_accessed to the current time and only
then reports, and a record touched this way survives any reap pass whose
read time is within 15 minutes of the touch (it is not eligible, and the
pass never modifies a non-eligible record), so polling status more often
than every 15 minutes keeps the record alive forever. -/
theorem C10_status_resets_idle_clock (eng : Engine) (reg : Registry) (now t' : Time)
    (app_name : String) (info : ContainerInfo)
    (hnd : (reg.map Prod.fst).Nodup)
    (h : Dict.lookup reg app_name = some info)
    (ht' : t' - now ≤ idleThreshold) :
    status_route eng reg now app_name
      = ({ status := "running", url := some ("http://localhost:" ++ info.host_port),
           started_at := some info.started_at, last_accessed := some now },
         Dict.insert reg app_name { info with last_accessed := now }) ∧
    Dict.lookup (cleanup_inactive_containers eng
        (Dict.insert reg app_name { info with last_accessed := now }) t').2 app_name
      = some { info with last_accessed := now } := by
  have hlk' : Dict.lookup (Dict.insert reg app_name { info with last_accessed := now }) app_name
      = some { info with last_accessed := now } := by
    rw [Dict.lookup_insert, if_pos rfl]
  constructor
  · unfold status_route
    simp only [ContainerManager.update_last_accessed, h]
    rw [ContainerManager.get_app_status_of_lookup eng _ app_name _ hlk']
  · have hkeys : ((Dict.insert reg app_name
        { info with last_accessed := now }).map Prod.fst).Nodup := by
      rw [Dict.keys_insert_of_lookup _ h]
      exact hnd
    have hnotmem : ¬ app_name ∈ inactiveApps
        (Dict.insert reg app_name { info with last_accessed := now }) t' := by
      intro hm
      obtain ⟨q, hq, hqa⟩ := List.mem_map.mp hm
      obtain ⟨hqmem, hqel⟩ := List.mem_filter.mp hq
      have hpmem : (app_name, { info with last_accessed := now })
          ∈ Dict.insert reg app_name { info with last_accessed := now } :=
        Dict.lookup_mem hlk'
      have heq : q = (app_name, { info with last_accessed := now }) :=
        Dict.key_inj hkeys hqmem hpmem hqa
      have hel := of_decide_eq_true hqel
      rw [heq] at hel
      exact absurd hel (Nat.not_lt.mpr ht')
    unfold cleanup_inactive_containers
    rw [reapGo_lookup_not_mem eng _ _ app_name hnotmem, hlk']

/-- C10 witness: polling the status of demo at time 150 rewrites its
last_accessed to 150, and the record survives a reap pass read at time
1000 (850 seconds later, within the 15-minute window). -/
theorem C10_status_resets_idle_clock_witness :
    status_route engAllOk regDemo 150 "demo"
      = ({ status := "running", url := some ("http://localhost:" ++ infoDemo.host_port),
           started_at := some infoDemo.started_at, last_accessed := some 150 },
         Dict.insert regDemo "demo" { infoDemo with last_accessed := 150 }) ∧
    Dict.lookup (cleanup_inactive_containers engAllOk
        (Dict.insert regDemo "demo" { infoDemo with last_accessed := 150 }) 1000).2 "demo"
      = some { infoDemo with last_accessed := 150 } :=
  C10_status_resets_idle_clock engAllOk regDemo 150 1000 "demo" infoDemo
    (by decide) (by decide) (by decide)
